import Mathlib

/-!
Verification development for rocket_engine/storage.py, a Django storage
layer over the Google App Engine Blobstore and Cloud Storage.

Shallow embedding conventions:
* byte strings are `List Nat`;
* the remote blobstore is an association list from blob keys to records
  (key, size, content type, filename, content bytes);
* Python methods become Lean functions over explicit state;
* Python exceptions become `Option`/`Except` results.
-/

/-! ## String helpers used by storage.py -/

/-- One character of Python's `name.replace('\\', '/')`. -/
def repChar (ch : Char) : Char :=
  if ch = '\\' then '/' else ch

/-- Python `name.replace('\\', '/')`: replace every backslash by a slash. -/
def replaceBackslash (s : String) : String :=
  String.mk (s.data.map repChar)

/-- Python whitespace for `str.strip()`: space, tab, newline, carriage
return, vertical tab, form feed. -/
def pyIsSpace (ch : Char) : Bool :=
  ch = ' ' || ch = '\t' || ch = '\n' || ch = '\r' || ch = '\x0b' || ch = '\x0c'

/-- Strip leading and trailing Python whitespace from a character list. -/
def stripL (l : List Char) : List Char :=
  ((l.dropWhile pyIsSpace).reverse.dropWhile pyIsSpace).reverse

/-- Python `name.strip()` (on our unicode-string model, `force_unicode`
is the identity). -/
def pyStrip (s : String) : String :=
  String.mk (stripL s.data)

/-- Python `name.lstrip('/')`: drop leading slashes. -/
def lstripSlashes (s : String) : String :=
  String.mk (s.data.dropWhile (fun ch => ch = '/'))

/-- Python `name.split('/', 1)[0]`: the substring before the first slash
(the whole string when there is no slash). -/
def splitKey (s : String) : String :=
  String.mk (s.data.takeWhile (fun ch => !(ch = '/')))

/-! ## Blob data model

`BlobRecord` models a committed blobstore object: the metadata carried by
a `google.appengine.ext.blobstore.BlobInfo` together with the object's
bytes held by the remote store. The blobstore itself is an association
list from keys to records; `storeGet` models `BlobInfo.get(key)`, which
returns `None` when the key does not resolve. -/

structure BlobRecord where
  key : String
  size : Nat
  content_type : String
  filename : String
  content : List Nat
deriving DecidableEq, Repr

/-- The remote blobstore: key-indexed committed blob records. -/
def Blobstore : Type := List (String × BlobRecord)

/-- Model of `BlobInfo.get(key)`: first record stored under the key,
`none` when absent. -/
def storeGet : Blobstore → String → Option BlobRecord
  | [], _ => none
  | (k, r) :: t, key => if k = key then some r else storeGet t key

/-! ## BlobstoreStorage: name normalization (storage.py lines 83-87) -/

/-- `BlobstoreStorage.get_valid_name`:
`force_unicode(name).strip().replace('\\', '/')`. -/
def BlobstoreStorage.get_valid_name (name : String) : String :=
  replaceBackslash (pyStrip name)

/-- `BlobstoreStorage.get_available_name`: `name.replace('\\', '/')`.
It takes only the name — the source consults no store and performs no
existence check. -/
def BlobstoreStorage.get_available_name (name : String) : String :=
  replaceBackslash name

/-! ### Idempotence lemmas for normalization (claim C8) -/

theorem repChar_repChar (ch : Char) : repChar (repChar ch) = repChar ch := by
  by_cases h : ch = '\\'
  · subst h; decide
  · simp [repChar, h]

theorem map_repChar_idem (l : List Char) :
    (l.map repChar).map repChar = l.map repChar := by
  induction l with
  | nil => rfl
  | cons a t ih => simp [List.map_cons, repChar_repChar, ih]

theorem pyIsSpace_repChar (ch : Char) : pyIsSpace (repChar ch) = pyIsSpace ch := by
  by_cases h : ch = '\\'
  · subst h; decide
  · simp [repChar, h]

theorem dropWhile_map_repChar (l : List Char) :
    (l.map repChar).dropWhile pyIsSpace = (l.dropWhile pyIsSpace).map repChar := by
  induction l with
  | nil => rfl
  | cons a t ih =>
    by_cases h : pyIsSpace a
    · rw [List.map_cons, List.dropWhile_cons_of_pos (by rw [pyIsSpace_repChar]; exact h),
        List.dropWhile_cons_of_pos h, ih]
    · rw [List.map_cons, List.dropWhile_cons_of_neg (by rw [pyIsSpace_repChar]; exact h),
        List.dropWhile_cons_of_neg h, List.map_cons]

theorem stripL_map_repChar (l : List Char) :
    stripL (l.map repChar) = (stripL l).map repChar := by
  unfold stripL
  rw [dropWhile_map_repChar, ← List.map_reverse, dropWhile_map_repChar, ← List.map_reverse]

theorem dropWhile_dropWhile (p : Char → Bool) (l : List Char) :
    (l.dropWhile p).dropWhile p = l.dropWhile p := by
  induction l with
  | nil => rfl
  | cons a t ih =>
    by_cases h : p a
    · rw [List.dropWhile_cons_of_pos h, ih]
    · rw [List.dropWhile_cons_of_neg h, List.dropWhile_cons_of_neg h]

theorem head?_dropWhile_false {p : Char → Bool} {l : List Char} {a : Char}
    (h : (l.dropWhile p).head? = some a) : p a = false := by
  induction l with
  | nil => simp [List.dropWhile] at h
  | cons b t ih =>
    by_cases hb : p b
    · rw [List.dropWhile_cons_of_pos hb] at h; exact ih h
    · rw [List.dropWhile_cons_of_neg hb] at h
      simp at h
      subst h
      simpa using hb

theorem getLast?_dropWhile (p : Char → Bool) (l : List Char) :
    l.dropWhile p = [] ∨ (l.dropWhile p).getLast? = l.getLast? := by
  induction l with
  | nil => exact Or.inl rfl
  | cons a t ih =>
    by_cases h : p a
    · rw [List.dropWhile_cons_of_pos h]
      rcases ih with h1 | h1
      · exact Or.inl h1
      · cases t with
        | nil => exact Or.inl rfl
        | cons b t2 => exact Or.inr (by rw [h1, List.getLast?_cons_cons])
    · rw [List.dropWhile_cons_of_neg h]
      exact Or.inr rfl

theorem dropWhile_eq_self_of_head {p : Char → Bool} {l : List Char}
    (h : ∀ a, l.head? = some a → p a = false) : l.dropWhile p = l := by
  cases l with
  | nil => rfl
  | cons a t =>
    have := h a rfl
    rw [List.dropWhile_cons_of_neg (by simp [this])]

theorem stripL_idem (l : List Char) : stripL (stripL l) = stripL l := by
  unfold stripL
  set A := l.dropWhile pyIsSpace with hA
  set C := A.reverse.dropWhile pyIsSpace with hC
  have step1 : C.reverse.dropWhile pyIsSpace = C.reverse := by
    apply dropWhile_eq_self_of_head
    intro a ha
    rw [List.head?_reverse] at ha
    rcases getLast?_dropWhile pyIsSpace A.reverse with h1 | h1
    · rw [← hC] at h1
      rw [h1] at ha
      simp at ha
    · rw [← hC] at h1
      rw [h1, List.getLast?_reverse] at ha
      exact head?_dropWhile_false ha
  rw [step1, List.reverse_reverse]
  have step2 : C.dropWhile pyIsSpace = C := by
    rw [hC, dropWhile_dropWhile]
  rw [step2]

/-! ## serve_file (storage.py lines 23-41)

`serve_file` composes HTTP headers and delegates the byte transfer to the
Blobstore. The Django `HttpResponse` is modelled as a record of the
headers this function can set; a field is `none` when the corresponding
`response[...] = ...` line did not run. The `blobstore_info` attribute,
when present on the file (or on its inner `file` attribute), holds a
`BlobInfo`; `key()` on it is the record's key. -/

structure Request where
  http_range : Option String

inductive ServeError where
  /-- The `ValueError` for a file that cannot be served via the Blobstore. -/
  | unsupportedSource
deriving DecidableEq

structure ServedFile where
  /-- `file.file.blobstore_info`, when the inner file attribute carries one. -/
  file_info : Option BlobRecord
  /-- `file.blobstore_info`, when carried directly. -/
  self_info : Option BlobRecord
  /-- `file.size` (`None` when unknown). -/
  size : Option Nat

structure Response where
  content_type : String
  /-- `response[BLOB_KEY_HEADER]` (the backend blob-identifier header). -/
  blob_key : Option String := none
  /-- `response['Accept-Ranges']`. -/
  accept_ranges : Option String := none
  /-- `response[BLOB_RANGE_HEADER]` (the backend range header). -/
  blob_range : Option String := none
  /-- `response['Content-Disposition']`. -/
  content_disposition : Option String := none
  /-- `response['Content-Length']`. -/
  content_length : Option Nat := none
deriving DecidableEq

/-- The blob key `serve_file` extracts: `file.file.blobstore_info.key()`
when the inner file attribute carries an info, else
`file.blobstore_info.key()` when carried directly, else nothing. -/
def servedBlobKey (file : ServedFile) : Option String :=
  match file.file_info with
  | some info => some info.key
  | none => file.self_info.map (fun info => info.key)

/-- Python truthiness of the optional `save_as` string. -/
def pyTruthy : Option String → Bool
  | none => false
  | some s => !(s = "")

/-- `serve_file(request, file, save_as, content_type)`. -/
def serve_file (request : Request) (file : ServedFile) (save_as : Option String)
    (content_type : String) : Except ServeError Response :=
  match servedBlobKey file with
  | none => Except.error ServeError.unsupportedSource
  | some blobkey =>
      Except.ok
        { content_type := content_type
          blob_key := some blobkey
          accept_ranges := some "bytes"
          blob_range := request.http_range
          content_disposition :=
            if pyTruthy save_as then
              some ("attachment; filename=" ++ save_as.getD "")
            else none
          content_length := file.size }

/-! ## BlobstoreStorage: save / key parsing / open / exists / size
(storage.py lines 43-104) -/

/-- Value found in a `blobstore_info` attribute: a `BlobInfo`, a bare
`BlobKey`, or some other value (the isinstance check rejects the last). -/
inductive BlobData where
  | info (r : BlobRecord)
  | key (k : String)
  | other
deriving DecidableEq

/-- A `content` argument to `BlobstoreStorage._save`: each field models
the corresponding attribute when `hasattr` finds it. -/
structure Content where
  /-- `content.file.blobstore_info`, when present. -/
  file_attr : Option BlobData
  /-- `content.blobstore_info`, when present. -/
  self_attr : Option BlobData
deriving DecidableEq

/-- The duck-typed probe in `_save`: the inner file attribute is
consulted first, then the object itself. -/
def contentBlobData (content : Content) : Option BlobData :=
  match content.file_attr with
  | some d => some d
  | none => content.self_attr

/-- Does the content carry a blob reference (`BlobInfo` or `BlobKey`)? -/
def carriesBlobRef (content : Content) : Bool :=
  match contentBlobData content with
  | some (BlobData.info _) => true
  | some (BlobData.key _) => true
  | _ => false

inductive SaveError where
  /-- `ValueError`: neither the content nor its file attribute carries
  `blobstore_info` — only blob-backed files are supported. -/
  | noBlobRef
  /-- `ValueError`: the attribute holds neither a `BlobInfo` nor a
  `BlobKey`; data cannot be uploaded directly. -/
  | notBlobInfo
deriving DecidableEq

/-- `BlobstoreStorage._save(name, content)` (Django's public `save`
delegates here). Replaces backslashes in the name, extracts the blob
reference, and returns the canonical name `<key>/<name.lstrip('/')>`.
It performs no blobstore call at all — nothing is ever written. -/
def BlobstoreStorage.save (content : Content) (name : String) :
    Except SaveError String :=
  let name2 := replaceBackslash name
  match contentBlobData content with
  | none => Except.error SaveError.noBlobRef
  | some (BlobData.info r) => Except.ok (r.key ++ "/" ++ lstripSlashes name2)
  | some (BlobData.key k) => Except.ok (k ++ "/" ++ lstripSlashes name2)
  | some BlobData.other => Except.error SaveError.notBlobInfo

/-- `BlobstoreStorage._get_key(name)`: `BlobKey(name.split('/', 1)[0])`. -/
def BlobstoreStorage.getKey (name : String) : String :=
  splitKey name

/-- `BlobstoreStorage._get_blobinfo(name)`: `BlobInfo.get(self._get_key(name))`. -/
def BlobstoreStorage.getBlobinfo (st : Blobstore) (name : String) : Option BlobRecord :=
  storeGet st (BlobstoreStorage.getKey name)

/-- `BlobstoreStorage.exists(name)`: `self._get_blobinfo(name) is not None`. -/
def BlobstoreStorage.existsName (st : Blobstore) (name : String) : Bool :=
  (BlobstoreStorage.getBlobinfo st name).isSome

/-- `BlobstoreStorage.size(name)`: `self._get_blobinfo(name).size`.
`none` models the exception Python raises when the info is `None`. -/
def BlobstoreStorage.size (st : Blobstore) (name : String) : Option Nat :=
  (BlobstoreStorage.getBlobinfo st name).map (fun r => r.size)

/-- A `BlobstoreFile`: `__init__` stores the name and the result of
`storage._get_blobinfo(name)` — it never raises, even when the lookup
comes back empty. -/
structure BlobstoreFile where
  name : String
  blobstore_info : Option BlobRecord
deriving DecidableEq

/-- `BlobstoreStorage._open(name, mode)`: constructs a `BlobstoreFile`.
Total: a missing name yields a handle with empty `blobstore_info`. -/
def BlobstoreStorage.openFile (st : Blobstore) (name : String) : BlobstoreFile :=
  { name := name, blobstore_info := BlobstoreStorage.getBlobinfo st name }

/-- `BlobstoreFile.size`: `self.blobstore_info.size`; `none` models the
exception raised when `blobstore_info` is `None`. -/
def BlobstoreFile.sizeOf (f : BlobstoreFile) : Option Nat :=
  f.blobstore_info.map (fun r => r.size)

/-! ## Upload interceptor (storage.py lines 115-168)

`BlobstoreFileUploadHandler` inspects each multipart part's
`content_type_extra` dict. The handler state records the fields
`new_file` assigns; raising `StopFutureHandlers` is modelled by the
Boolean returned alongside the state. `receive_data_chunk` and
`file_complete` never mutate the state in the source, so they are plain
functions of it. -/

structure PartMeta where
  /-- The part's `content_type_extra` dict. -/
  content_type_extra : List (String × String)
  /-- The part's charset (set by the superclass `new_file`). -/
  charset : Option String := none

/-- Python `dict.get(key)`. -/
def dictGet : List (String × String) → String → Option String
  | [], _ => none
  | (k, v) :: t, key => if k = key then some v else dictGet t key

structure BlobstoreFileUploadHandlerState where
  active : Bool := false
  /-- `self.blobkey`, assigned only on the active path. -/
  blobkey : Option String := none
  charset : Option String := none
deriving DecidableEq

/-- `BlobstoreFileUploadHandler.new_file`: looks up `'blob-key'` in
`content_type_extra`; when present, sets `active`, records the key and
raises `StopFutureHandlers` (the second component). -/
def BlobstoreFileUploadHandler.new_file (meta : PartMeta) :
    BlobstoreFileUploadHandlerState × Bool :=
  match dictGet meta.content_type_extra "blob-key" with
  | some k =>
      ({ active := true, blobkey := some k, charset := meta.charset }, true)
  | none =>
      ({ active := false, blobkey := none, charset := meta.charset }, false)

/-- `BlobstoreFileUploadHandler.receive_data_chunk`: returns `raw_data`
unless the handler is active (then it returns `None`). -/
def BlobstoreFileUploadHandler.receive_data_chunk
    (st : BlobstoreFileUploadHandlerState) (raw_data : List Nat) (_start : Nat) :
    Option (List Nat) :=
  if st.active then none else some raw_data

/-- A `BlobstoreUploadedFile`: wraps `BlobInfo(blobkey)` — a lazy
reference holding only the key (per the spec's interface boundary for
the App Engine SDK, resolution is deferred to first use) — plus the
charset handed over by the handler. -/
structure BlobstoreUploadedFile where
  blobkey : String
  charset : Option String
deriving DecidableEq

/-- `BlobstoreFileUploadHandler.file_complete`: nothing unless active;
otherwise the uploaded-file wrapper around `BlobInfo(self.blobkey)`. -/
def BlobstoreFileUploadHandler.file_complete
    (st : BlobstoreFileUploadHandlerState) (_file_size : Nat) :
    Option BlobstoreUploadedFile :=
  if st.active then
    st.blobkey.map (fun k => { blobkey := k, charset := st.charset })
  else none

inductive BlobError where
  | notFound
deriving DecidableEq

/-- First `read(n)` through the wrapped `BlobReader`. Modelled from the
spec's interface boundary for the App Engine SDK (spec section 4.2): the
reader holds only the key, and a read against a key absent from the
blobstore fails with NotFound; on a committed blob it returns the first
`n` bytes. -/
def BlobstoreUploadedFile.readFirst (uf : BlobstoreUploadedFile)
    (st : Blobstore) (n : Nat) : Except BlobError (List Nat) :=
  match storeGet st uf.blobkey with
  | none => Except.error BlobError.notFound
  | some r => Except.ok (r.content.take n)

/-! ## Chunked reading (storage.py lines 159-165)

The generator

    self.file.seek(0)
    while True:
        content = self.read(chunk_size)
        if not content:
            break
        yield content

is embedded as `readChunks bytes chunk_size pos`: `pos` is the reader's
cursor, a read returns the next `chunk_size` bytes and advances the
cursor by the length actually read, and the loop stops at the first
empty read. -/

/-- The cursor state of a `BlobReader` over a committed blob's bytes. -/
structure BlobReader where
  bytes : List Nat
  pos : Nat
deriving DecidableEq

/-- The read loop of the `chunks` generator, from cursor `pos`: the
content of one read is `(bytes.drop pos).take chunk_size`. -/
def readChunks (bytes : List Nat) (chunk_size : Nat) (pos : Nat) :
    List (List Nat) :=
  if h : (bytes.drop pos).take chunk_size = [] then []
  else ((bytes.drop pos).take chunk_size)
    :: readChunks bytes chunk_size (pos + ((bytes.drop pos).take chunk_size).length)
termination_by bytes.length - pos
decreasing_by
  have hlen : 0 < ((bytes.drop pos).take chunk_size).length := List.length_pos.mpr h
  have hpos : pos < bytes.length := by
    by_contra hcn
    have hd : bytes.drop pos = [] := List.drop_eq_nil_of_le (Nat.le_of_not_lt hcn)
    simp [hd] at hlen
  omega

/-- `BlobstoreUploadedFile.chunks(chunk_size)`: seeks the underlying
reader back to 0, then runs the read loop. The function takes the
reader state of `self.file` explicitly. -/
def BlobstoreUploadedFile.chunks (file : BlobReader) (chunk_size : Nat) :
    List (List Nat) :=
  readChunks file.bytes chunk_size 0

/-! ### Lemmas about the read loop (claim C2) -/

theorem take_append_drop_length (n : Nat) (l : List Nat) :
    l.take n ++ l.drop (l.take n).length = l := by
  rcases Nat.le_total n l.length with h | h
  · rw [List.length_take, Nat.min_eq_left h, List.take_append_drop]
  · rw [List.length_take, Nat.min_eq_right h, List.drop_length,
      List.take_of_length_le h, List.append_nil]

theorem readChunks_join (bytes : List Nat) (chunk_size : Nat)
    (hc : 0 < chunk_size) (pos : Nat) :
    (readChunks bytes chunk_size pos).flatten = bytes.drop pos := by
  rw [readChunks.eq_def]
  split
  next h =>
    rcases List.take_eq_nil_iff.mp h with h1 | h1
    · omega
    · rw [h1]; rfl
  next h =>
    rw [List.flatten_cons,
      readChunks_join bytes chunk_size hc (pos + ((bytes.drop pos).take chunk_size).length)]
    have hdd : bytes.drop (pos + ((bytes.drop pos).take chunk_size).length)
        = (bytes.drop pos).drop ((bytes.drop pos).take chunk_size).length := by
      rw [List.drop_drop]
    rw [hdd, take_append_drop_length]
termination_by bytes.length - pos
decreasing_by
  have hlen : 0 < ((bytes.drop pos).take chunk_size).length :=
    List.length_pos.mpr (by assumption)
  have hpos : pos < bytes.length := by
    by_contra hcn
    have hd : bytes.drop pos = [] := List.drop_eq_nil_of_le (Nat.le_of_not_lt hcn)
    simp [hd] at hlen
  omega

theorem readChunks_mem (bytes : List Nat) (chunk_size : Nat) (pos : Nat) :
    ∀ ch ∈ readChunks bytes chunk_size pos, ch.length ≤ chunk_size ∧ ch ≠ [] := by
  intro ch hch
  rw [readChunks.eq_def] at hch
  split at hch
  next h => simp at hch
  next h =>
    rcases List.mem_cons.mp hch with h1 | h1
    · subst h1
      refine ⟨?_, h⟩
      rw [List.length_take]
      exact Nat.min_le_left chunk_size (bytes.drop pos).length
    · exact readChunks_mem bytes chunk_size
        (pos + ((bytes.drop pos).take chunk_size).length) ch h1
termination_by bytes.length - pos
decreasing_by
  have hlen : 0 < ((bytes.drop pos).take chunk_size).length :=
    List.length_pos.mpr (by assumption)
  have hpos : pos < bytes.length := by
    by_contra hcn
    have hd : bytes.drop pos = [] := List.drop_eq_nil_of_le (Nat.le_of_not_lt hcn)
    simp [hd] at hlen
  omega

/-! ## CloudStorage (storage.py lines 171-224)

The Google Cloud Storage files API is modelled as a filesystem `GFS`
with pending (created, not yet finalized) and finalized files, each an
association list from full path to bytes. Reads resolve only finalized
files (the spec's finalize-visibility invariant for the files API
boundary); `files.open(..., 'r')` on an unknown path raises
`ExistenceError`, modelled by `none`. A reader handle is a byte list
plus a cursor. -/

structure GReader where
  bytes : List Nat
  pos : Nat
deriving DecidableEq

/-- `f.read(n)`: the next `n` bytes (possibly fewer at the end) and the
advanced reader. -/
def GReader.read (r : GReader) (n : Nat) : List Nat × GReader :=
  (((r.bytes.drop r.pos).take n),
    { r with pos := r.pos + ((r.bytes.drop r.pos).take n).length })

/-- `f.tell()`. -/
def GReader.tell (r : GReader) : Nat := r.pos

structure GFS where
  pending : List (String × List Nat)
  finalized : List (String × List Nat)

/-- Association-list lookup (first match wins). -/
def lookupA : List (String × List Nat) → String → Option (List Nat)
  | [], _ => none
  | (k, v) :: t, key => if k = key then some v else lookupA t key

/-- Append data to the first entry stored under `key`. -/
def appendA : List (String × List Nat) → String → List Nat → List (String × List Nat)
  | [], _, _ => []
  | (k, v) :: t, key, d => if k = key then (k, v ++ d) :: t else (k, v) :: appendA t key d

/-- Remove the first entry stored under `key`. -/
def removeA : List (String × List Nat) → String → List (String × List Nat)
  | [], _ => []
  | (k, v) :: t, key => if k = key then t else (k, v) :: removeA t key

/-- `files.gs.create(path, ...)`: opens an empty write destination and
returns the writable path (the mime type and acl do not affect the
stored bytes and are not modelled). -/
def GFS.create (fs : GFS) (path : String) : GFS × String :=
  ({ fs with pending := (path, []) :: fs.pending }, path)

/-- `fp.write(data)` on a writable path opened with `files.open(..., 'a')`. -/
def GFS.write (fs : GFS) (path : String) (data : List Nat) : GFS :=
  { fs with pending := appendA fs.pending path data }

/-- `files.finalize(write_path)`: the written bytes become visible to
readers. -/
def GFS.finalize (fs : GFS) (path : String) : GFS :=
  match lookupA fs.pending path with
  | some v => { pending := removeA fs.pending path, finalized := (path, v) :: fs.finalized }
  | none => fs

/-- `files.open(path, 'r')`: a reader over a finalized file, `none` for
the `ExistenceError` on an unknown path. -/
def GFS.openRead (fs : GFS) (path : String) : Option GReader :=
  (lookupA fs.finalized path).map (fun b => { bytes := b, pos := 0 })

/-- A `CloudStorage` backend instance: `location` is the `/gs/<bucket>/`
root, `base_url` the public address root, both derived from the bucket
setting at construction. -/
structure CloudStorage where
  location : String
  base_url : String

/-- `CloudStorage.save(name, content)`: create the destination, write
the whole source stream, finalize, and return the given name. -/
def CloudStorage.save (s : CloudStorage) (fs : GFS) (name : String)
    (content : List Nat) : GFS × String :=
  let created := fs.create (s.location ++ name)
  let write_path := created.2
  let written := created.1.write write_path content
  (written.finalize write_path, name)

/-- `CloudStorage.exists(name)`: try `files.open(..., 'r')`, false on
`ExistenceError`. -/
def CloudStorage.existsName (s : CloudStorage) (fs : GFS) (name : String) : Bool :=
  (fs.openRead (s.location ++ name)).isSome

/-- The byte-at-a-time loop of `CloudStorage.size`: `data` is the last
read; keep reading one byte until a read comes back empty, then `tell()`. -/
def sizeLoop (r : GReader) (data : List Nat) : Nat :=
  if h : data = [] then r.tell
  else sizeLoop (r.read 1).2 (r.read 1).1
termination_by r.bytes.length - r.pos + (if data = [] then 0 else 1)
decreasing_by
  simp only [GReader.read, if_neg h]
  by_cases hd : (r.bytes.drop r.pos).take 1 = []
  · simp [hd]
  · have hlen : 0 < ((r.bytes.drop r.pos).take 1).length := List.length_pos.mpr hd
    have hpos : r.pos < r.bytes.length := by
      by_contra hcn
      have hnil : r.bytes.drop r.pos = [] := List.drop_eq_nil_of_le (Nat.le_of_not_lt hcn)
      simp [hnil] at hlen
    rw [if_neg hd]
    omega

/-- `CloudStorage.size(name)`: open for reading, read one byte at a time
until an empty read, return `f.tell()`; `ExistenceError` on an unknown
path is `none`. (The unreachable `return 0` after the `with` block is
dead code.) -/
def CloudStorage.size (s : CloudStorage) (fs : GFS) (name : String) : Option Nat :=
  (fs.openRead (s.location ++ name)).map (fun f =>
    sizeLoop (f.read 1).2 (f.read 1).1)

/-- The accumulation loop of `CloudStorage._open`: every read — the
terminal empty one included — is appended to `file_data`. -/
def readAllLoop (r : GReader) (data : List Nat) (acc : List (List Nat)) :
    List (List Nat) :=
  if h : data = [] then acc
  else readAllLoop (r.read 1).2 (r.read 1).1 (acc ++ [(r.read 1).1])
termination_by r.bytes.length - r.pos + (if data = [] then 0 else 1)
decreasing_by
  simp only [GReader.read, if_neg h]
  by_cases hd : (r.bytes.drop r.pos).take 1 = []
  · simp [hd]
  · have hlen : 0 < ((r.bytes.drop r.pos).take 1).length := List.length_pos.mpr hd
    have hpos : r.pos < r.bytes.length := by
      by_contra hcn
      have hnil : r.bytes.drop r.pos = [] := List.drop_eq_nil_of_le (Nat.le_of_not_lt hcn)
      simp [hnil] at hlen
    rw [if_neg hd]
    omega

/-- A Django `ContentFile` over the joined bytes (the framework file
object is modelled at its interface boundary: a readable handle over its
content). -/
structure ContentFile where
  content : List Nat
deriving DecidableEq

/-- `File.chunks(chunk_size)` on a `ContentFile`: reads from the start
in bounded chunks, stopping at the first empty read. -/
def ContentFile.chunks (f : ContentFile) (chunk_size : Nat) : List (List Nat) :=
  readChunks f.content chunk_size 0

/-- `CloudStorage._open(name, mode)`: read the whole object one byte at
a time into `file_data` and wrap the joined bytes as a `ContentFile`;
`ExistenceError` on an unknown path is `none`. -/
def CloudStorage.openFile (s : CloudStorage) (fs : GFS) (name : String) :
    Option ContentFile :=
  (fs.openRead (s.location ++ name)).map (fun f =>
    ContentFile.mk (readAllLoop (f.read 1).2 (f.read 1).1 [(f.read 1).1]).flatten)

/-- `CloudStorage.url(name)`. -/
def CloudStorage.url (s : CloudStorage) (name : String) : String :=
  s.base_url ++ name

/-! ## Shared evaluation lemmas for the loop definitions -/

theorem readChunks_nil (chunk_size pos : Nat) : readChunks [] chunk_size pos = [] := by
  rw [readChunks.eq_def]
  simp

theorem readAllLoop_nil (r : GReader) (acc : List (List Nat)) :
    readAllLoop r [] acc = acc := by
  rw [readAllLoop.eq_def]
  simp

theorem sizeLoop_nil (r : GReader) : sizeLoop r [] = r.pos := by
  rw [sizeLoop.eq_def]
  simp [GReader.tell]

/-! ## Key parsing -/

theorem takeWhile_key (k : List Char) (q : List Char) (hk : '/' ∉ k) :
    (k ++ '/' :: q).takeWhile (fun ch => !(ch = '/')) = k := by
  induction k with
  | nil => simp
  | cons a t ih =>
    have ha : a ≠ '/' := fun h => hk (by simp [h])
    rw [List.cons_append, List.takeWhile_cons_of_pos (by simp [ha]),
      ih (fun h => hk (List.mem_cons_of_mem a h))]

/-- Parsing the key back out of a canonical name `<k>/<q>`: when `k`
contains no slash, the substring before the first slash is `k`. -/
theorem splitKey_canonical (k q : String) (hk : '/' ∉ k.data) :
    splitKey (k ++ "/" ++ q) = k := by
  unfold splitKey
  have hslash : "/".data = ['/'] := rfl
  have hd : (k ++ "/" ++ q).data = k.data ++ '/' :: q.data := by
    rw [String.data_append, String.data_append, List.append_assoc, hslash,
      List.singleton_append]
  rw [hd, takeWhile_key k.data q.data hk]

/-! ## Concrete fixtures used by witnesses and counterexamples -/

def sampleRec : BlobRecord :=
  { key := "k", size := 3, content_type := "text/plain",
    filename := "a.txt", content := [1, 2, 3] }

def sampleContent : Content :=
  { file_attr := none, self_attr := some (BlobData.info sampleRec) }

def sampleStore : Blobstore := [("k", sampleRec)]

/-! ## Claim theorems -/

/-- C1: a multipart part whose metadata carries a pre-committed blob key
makes `new_file` set `active`, record the key and raise
`StopFutureHandlers`, and every subsequent `receive_data_chunk` returns
nothing (so no byte of the part reaches generic handling); a part
without such a key leaves the handler inactive, `receive_data_chunk`
returns `raw_data` unchanged, and `file_complete` returns nothing. -/
theorem upload_interceptor_state_machine (meta : PartMeta) (raw : List Nat)
    (start file_size : Nat) :
    match dictGet meta.content_type_extra "blob-key" with
    | some k =>
        (BlobstoreFileUploadHandler.new_file meta).1.active = true ∧
        (BlobstoreFileUploadHandler.new_file meta).1.blobkey = some k ∧
        (BlobstoreFileUploadHandler.new_file meta).2 = true ∧
        BlobstoreFileUploadHandler.receive_data_chunk
          (BlobstoreFileUploadHandler.new_file meta).1 raw start = none
    | none =>
        (BlobstoreFileUploadHandler.new_file meta).1.active = false ∧
        (BlobstoreFileUploadHandler.new_file meta).2 = false ∧
        BlobstoreFileUploadHandler.receive_data_chunk
          (BlobstoreFileUploadHandler.new_file meta).1 raw start = some raw ∧
        BlobstoreFileUploadHandler.file_complete
          (BlobstoreFileUploadHandler.new_file meta).1 file_size = none := by
  cases h : dictGet meta.content_type_extra "blob-key" with
  | some k =>
    simp [BlobstoreFileUploadHandler.new_file, h,
      BlobstoreFileUploadHandler.receive_data_chunk]
  | none =>
    simp [BlobstoreFileUploadHandler.new_file, h,
      BlobstoreFileUploadHandler.receive_data_chunk,
      BlobstoreFileUploadHandler.file_complete]

/-- C2: for any underlying bytes `B`, any starting cursor and any
positive chunk size, `chunks` concatenates back to exactly `B` (the
cursor is reset to 0 first, so the same holds on re-invocation from any
cursor), every yielded chunk has at most `chunk_size` bytes and is
nonempty (the loop stops at the first empty read), and every invocation
restarts from the beginning. -/
theorem uploaded_file_chunks_reproduce_bytes (B : List Nat) (pos : Nat)
    (chunk_size : Nat) (hc : 0 < chunk_size) :
    (BlobstoreUploadedFile.chunks ⟨B, pos⟩ chunk_size).flatten = B ∧
    (∀ ch ∈ BlobstoreUploadedFile.chunks ⟨B, pos⟩ chunk_size,
      ch.length ≤ chunk_size ∧ ch ≠ []) ∧
    BlobstoreUploadedFile.chunks ⟨B, pos⟩ chunk_size
      = BlobstoreUploadedFile.chunks ⟨B, 0⟩ chunk_size := by
  refine ⟨?_, ?_, rfl⟩
  · rw [BlobstoreUploadedFile.chunks, readChunks_join B chunk_size hc 0, List.drop_zero]
  · rw [BlobstoreUploadedFile.chunks]
    exact readChunks_mem B chunk_size 0

theorem uploaded_file_chunks_reproduce_bytes_witness :
    (0 < 1 ∧ (BlobstoreUploadedFile.chunks ⟨[7, 8, 9], 2⟩ 1).flatten = [7, 8, 9]) ∧
    (0 < 128 ∧ (BlobstoreUploadedFile.chunks ⟨[7, 8, 9], 2⟩ 128).flatten = [7, 8, 9]) ∧
    (0 < 3 ∧ (BlobstoreUploadedFile.chunks ⟨[7, 8, 9], 2⟩ 3).flatten = [7, 8, 9]) ∧
    (0 < 4 ∧ (BlobstoreUploadedFile.chunks ⟨[7, 8, 9], 2⟩ 4).flatten = [7, 8, 9]) :=
  ⟨⟨by decide, (uploaded_file_chunks_reproduce_bytes [7, 8, 9] 2 1 (by decide)).1⟩,
   ⟨by decide, (uploaded_file_chunks_reproduce_bytes [7, 8, 9] 2 128 (by decide)).1⟩,
   ⟨by decide, (uploaded_file_chunks_reproduce_bytes [7, 8, 9] 2 3 (by decide)).1⟩,
   ⟨by decide, (uploaded_file_chunks_reproduce_bytes [7, 8, 9] 2 4 (by decide)).1⟩⟩

/-- C3 counterexample: the canonical name is not literally `<k>/<p>` for
every name `p` — `_save` strips leading slashes (and converts
backslashes) first: saving under the name `/a` yields `k/a`, not
`k//a`. -/
theorem blobstore_save_canonical_name_cex :
    BlobstoreStorage.save sampleContent "/a" = Except.ok "k/a" ∧
    "k/a" ≠ "k" ++ "/" ++ "/a" := by
  constructor
  · rfl
  · decide

/-- C3 (amended): saving content carrying a pre-committed blob reference
with slash-free key `k` under any name `p` yields the canonical name
`<k>/<p2>` where `p2` is `p` with backslashes converted to slashes and
leading slashes stripped; the key is re-parsed as the substring before
the first slash, so `open` on the canonical name resolves to the very
record the store holds for `k` (key, size, content type equal). -/
theorem blobstore_save_open_roundtrip (st : Blobstore) (c : Content)
    (r : BlobRecord) (p : String)
    (hc : contentBlobData c = some (BlobData.info r))
    (hk : '/' ∉ r.key.data)
    (hst : storeGet st r.key = some r) :
    BlobstoreStorage.save c p
      = Except.ok (r.key ++ "/" ++ lstripSlashes (replaceBackslash p)) ∧
    BlobstoreStorage.getKey (r.key ++ "/" ++ lstripSlashes (replaceBackslash p))
      = r.key ∧
    (BlobstoreStorage.openFile st
        (r.key ++ "/" ++ lstripSlashes (replaceBackslash p))).blobstore_info
      = some r := by
  refine ⟨?_, ?_, ?_⟩
  · rw [BlobstoreStorage.save, hc]
  · exact splitKey_canonical r.key _ hk
  · rw [BlobstoreStorage.openFile]
    simp only [BlobstoreStorage.getBlobinfo, BlobstoreStorage.getKey,
      splitKey_canonical r.key _ hk, hst]

theorem blobstore_save_open_roundtrip_witness :
    contentBlobData sampleContent = some (BlobData.info sampleRec) ∧
    '/' ∉ "k".data ∧
    storeGet sampleStore "k" = some sampleRec ∧
    BlobstoreStorage.save sampleContent "a.txt" = Except.ok "k/a.txt" ∧
    (BlobstoreStorage.openFile sampleStore "k/a.txt").blobstore_info
      = some sampleRec :=
  ⟨rfl, by decide, rfl,
   (blobstore_save_open_roundtrip sampleStore sampleContent sampleRec "a.txt"
      rfl (by decide) rfl).1,
   (blobstore_save_open_roundtrip sampleStore sampleContent sampleRec "a.txt"
      rfl (by decide) rfl).2.2⟩

/-- C4: `serve_file` fails with the unsupported-source error exactly for
handles backed by no blob reference (neither the object nor its inner
file attribute carries one); on a blob-backed handle it answers with the
blob-identifier header set to the blob's key, `Accept-Ranges: bytes`,
the inbound `Range` header copied verbatim into the backend range header
exactly when the request carried one, the attachment content
disposition exactly when a (truthy) display name is requested, and
`Content-Length` equal to the object's size exactly when it is known. -/
def ServeOk (req : Request) (f : ServedFile) (save_as : Option String)
    (ct : String) (info : BlobRecord) : Prop :=
  ∃ resp, serve_file req f save_as ct = Except.ok resp ∧
    resp.blob_key = some info.key ∧
    resp.accept_ranges = some "bytes" ∧
    resp.blob_range = req.http_range ∧
    resp.content_disposition
      = (if pyTruthy save_as then
          some ("attachment; filename=" ++ save_as.getD "") else none) ∧
    resp.content_length = f.size

/-- C4: see `ServeOk` for the success conditions. -/
theorem serve_file_headers (req : Request) (f : ServedFile)
    (save_as : Option String) (ct : String) :
    match f.file_info, f.self_info with
    | none, none =>
        serve_file req f save_as ct = Except.error ServeError.unsupportedSource
    | some info, _ => ServeOk req f save_as ct info
    | none, some info => ServeOk req f save_as ct info := by
  rcases f with ⟨fi, si, sz⟩
  cases fi <;> cases si <;> simp [ServeOk, serve_file, servedBlobKey]

/-- C5: content that carries no blob reference — no `blobstore_info`
attribute on the object or its file attribute, or an attribute value
that is not a `BlobInfo`/`BlobKey` — is rejected by `_save` with a
`ValueError`; since `_save` performs no blobstore call at all, nothing
is ever stored, so raw byte streams can never be persisted through this
variant's save. -/
theorem blobstore_save_rejects_raw (c : Content) (n : String)
    (h : carriesBlobRef c = false) :
    ∃ e, BlobstoreStorage.save c n = Except.error e := by
  rw [BlobstoreStorage.save]
  rcases hd : contentBlobData c with _ | d
  · exact ⟨SaveError.noBlobRef, rfl⟩
  · cases d with
    | info r => rw [carriesBlobRef, hd] at h; simp at h
    | key k => rw [carriesBlobRef, hd] at h; simp at h
    | other => exact ⟨SaveError.notBlobInfo, rfl⟩

theorem blobstore_save_rejects_raw_witness :
    carriesBlobRef { file_attr := none, self_attr := none } = false ∧
    ∃ e, BlobstoreStorage.save { file_attr := none, self_attr := none } "x.bin"
      = Except.error e :=
  ⟨rfl, blobstore_save_rejects_raw { file_attr := none, self_attr := none }
    "x.bin" rfl⟩

/-- C6 counterexample: `open` on a name that was never saved does not
fail — `_open` constructs and returns a `BlobstoreFile` handle whose
blob resolution is empty, even though the name does not exist. -/
theorem blobstore_open_missing_cex :
    BlobstoreStorage.openFile [] "ghost.txt"
      = { name := "ghost.txt", blobstore_info := none } ∧
    BlobstoreStorage.existsName [] "ghost.txt" = false := by
  exact ⟨rfl, rfl⟩

/-- C6 (amended): for a name never saved nor pre-committed, `exists` is
false (without raising) and `size` fails; `open` itself succeeds,
returning a handle with empty blob resolution whose first use
(`size`) then fails — NotFound surfaces lazily, not at open time. -/
theorem blobstore_missing_name_behaviour (st : Blobstore) (n : String)
    (h : BlobstoreStorage.getBlobinfo st n = none) :
    BlobstoreStorage.existsName st n = false ∧
    BlobstoreStorage.size st n = none ∧
    BlobstoreStorage.openFile st n = { name := n, blobstore_info := none } ∧
    (BlobstoreStorage.openFile st n).sizeOf = none := by
  refine ⟨?_, ?_, ?_, ?_⟩ <;>
    simp [BlobstoreStorage.existsName, BlobstoreStorage.size,
      BlobstoreStorage.openFile, BlobstoreFile.sizeOf, h]

theorem blobstore_missing_name_behaviour_witness :
    BlobstoreStorage.getBlobinfo [] "missing.txt" = none ∧
    (BlobstoreStorage.existsName [] "missing.txt" = false ∧
      BlobstoreStorage.size [] "missing.txt" = none ∧
      BlobstoreStorage.openFile [] "missing.txt"
        = { name := "missing.txt", blobstore_info := none } ∧
      (BlobstoreStorage.openFile [] "missing.txt").sizeOf = none) :=
  ⟨rfl, blobstore_missing_name_behaviour [] "missing.txt" rfl⟩

/-- C7: a part carrying a blob key that resolves to no committed object
still completes interception — `new_file` raises the stop signal and
`file_complete` produces the uploaded-file wrapper around the key — and
the NotFound failure surfaces only at the first read through the
wrapped reader, never at interception or completion time. -/
theorem upload_deferred_notfound (meta : PartMeta) (k : String)
    (st : Blobstore) (file_size n : Nat)
    (hk : dictGet meta.content_type_extra "blob-key" = some k)
    (hmiss : storeGet st k = none) :
    (BlobstoreFileUploadHandler.new_file meta).2 = true ∧
    ∃ uf, BlobstoreFileUploadHandler.file_complete
        (BlobstoreFileUploadHandler.new_file meta).1 file_size = some uf ∧
      uf.blobkey = k ∧
      uf.readFirst st n = Except.error BlobError.notFound := by
  refine ⟨?_, ⟨{ blobkey := k, charset := meta.charset }, ?_, rfl, ?_⟩⟩
  · simp [BlobstoreFileUploadHandler.new_file, hk]
  · simp [BlobstoreFileUploadHandler.new_file, hk,
      BlobstoreFileUploadHandler.file_complete]
  · simp [BlobstoreUploadedFile.readFirst, hmiss]

theorem upload_deferred_notfound_witness :
    dictGet [("blob-key", "nokey")] "blob-key" = some "nokey" ∧
    storeGet [] "nokey" = none ∧
    ((BlobstoreFileUploadHandler.new_file
        { content_type_extra := [("blob-key", "nokey")], charset := none }).2 = true ∧
      ∃ uf, BlobstoreFileUploadHandler.file_complete
          (BlobstoreFileUploadHandler.new_file
            { content_type_extra := [("blob-key", "nokey")], charset := none }).1 0
          = some uf ∧
        uf.blobkey = "nokey" ∧
        uf.readFirst [] 5 = Except.error BlobError.notFound) :=
  ⟨rfl, rfl,
   upload_deferred_notfound
     { content_type_extra := [("blob-key", "nokey")], charset := none }
     "nokey" [] 0 5 rfl rfl⟩

/-- C8: both name normalizations of the Blobstore backend are
idempotent: `get_valid_name` (unicode-strip plus backslash-to-slash
conversion) and `get_available_name` (backslash-to-slash conversion). -/
theorem storage_normalization_idempotent (n : String) :
    BlobstoreStorage.get_valid_name (BlobstoreStorage.get_valid_name n)
      = BlobstoreStorage.get_valid_name n ∧
    BlobstoreStorage.get_available_name (BlobstoreStorage.get_available_name n)
      = BlobstoreStorage.get_available_name n := by
  have h1 : stripL ((stripL n.data).map repChar) = (stripL n.data).map repChar := by
    rw [stripL_map_repChar, stripL_idem]
  constructor
  · show String.mk ((stripL ((stripL n.data).map repChar)).map repChar)
        = String.mk ((stripL n.data).map repChar)
    rw [h1, map_repChar_idem]
  · show String.mk ((n.data.map repChar).map repChar) = String.mk (n.data.map repChar)
    rw [map_repChar_idem]

/-- C9: saving 0-byte content to the Mutable Object Store under
`empty.txt` — create the destination, write all source bytes, finalize —
returns the given name, after which `size` is 0, `exists` is true, and
`open` yields a handle whose chunk sequence is empty for every chunk
size. Holds over any prior filesystem state. -/
theorem cloud_save_empty_roundtrip (s : CloudStorage) (fs : GFS) (c : Nat) :
    (CloudStorage.save s fs "empty.txt" []).2 = "empty.txt" ∧
    CloudStorage.size s (CloudStorage.save s fs "empty.txt" []).1 "empty.txt"
      = some 0 ∧
    CloudStorage.existsName s (CloudStorage.save s fs "empty.txt" []).1 "empty.txt"
      = true ∧
    ∃ f, CloudStorage.openFile s (CloudStorage.save s fs "empty.txt" []).1 "empty.txt"
        = some f ∧ ContentFile.chunks f c = [] := by
  refine ⟨rfl, ?_, ?_, ?_⟩
  · simp [CloudStorage.save, CloudStorage.size, GFS.create, GFS.write, GFS.finalize,
      GFS.openRead, appendA, lookupA, removeA, GReader.read]
    rw [sizeLoop.eq_def]
    simp [GReader.tell]
  · simp [CloudStorage.save, CloudStorage.existsName, GFS.create, GFS.write,
      GFS.finalize, GFS.openRead, appendA, lookupA, removeA]
  · simp [CloudStorage.save, CloudStorage.openFile, GFS.create, GFS.write,
      GFS.finalize, GFS.openRead, appendA, lookupA, removeA, GReader.read]
    simp [ContentFile.chunks, readAllLoop_nil, readChunks_nil]

/-- C10: `get_available_name` only converts backslashes to forward
slashes — it is a function of the name alone (the embedding gives it no
store argument because the source consults none), so two different
blobs saved under the same client name get canonical names that differ
only by their blob key. -/
theorem available_name_no_existence_check (n p : String) (r1 r2 : BlobRecord) :
    BlobstoreStorage.get_available_name n = replaceBackslash n ∧
    (BlobstoreStorage.get_available_name n).data = n.data.map repChar ∧
    ∃ q, BlobstoreStorage.save
          { file_attr := none, self_attr := some (BlobData.info r1) } p
          = Except.ok (r1.key ++ "/" ++ q) ∧
        BlobstoreStorage.save
          { file_attr := none, self_attr := some (BlobData.info r2) } p
          = Except.ok (r2.key ++ "/" ++ q) :=
  ⟨rfl, rfl, lstripSlashes (replaceBackslash p), rfl, rfl⟩
